import Mathlib

/-!
# AegisNet data-plane core: shallow embedding and verification

This file embeds the core data model and operations of the AegisNet
repository (crates `aegisnet-common`, `aegisnet-ebpf`, `aegisnet-agent`)
as executable Lean definitions, and proves or refutes the specified
properties about them.

Machine integers (`u8`, `u16`, `u32`) are modelled as `Nat`; none of the
embedded operations overflow, and bounds (`port ≤ 65535`) appear as
explicit hypotheses where a property depends on them.
-/

/-! ## Policy model (`crates/aegisnet-common/src/models/policy.rs`,
`crates/aegisnet-common/src/models/spiffe.rs`) -/

/-- `SpiffeId` (models/spiffe.rs): trust domain plus path, with the derived
structural equality (`#[derive(PartialEq, Eq)]`). -/
structure SpiffeId where
  trust_domain : String
  path : String
deriving DecidableEq, Repr

/-- `std::net::IpAddr` as the policy model uses it: an IPv4 address is four
octets, an IPv6 address sixteen bytes; equality is structural. -/
inductive IpAddr where
| v4 (o0 o1 o2 o3 : Nat)
| v6 (bytes : List Nat)
deriving DecidableEq, Repr

/-- `Protocol` (policy.rs). -/
inductive Protocol where
| TCP
| UDP
| ICMP
| All
deriving DecidableEq, Repr

/-- `PolicyAction` (policy.rs). -/
inductive PolicyAction where
| Allow
| Deny
| Log
| RateLimit
deriving DecidableEq, Repr

/-- `PortRange` (policy.rs): inclusive port interval, `u16` endpoints
modelled as `Nat`. -/
structure PortRange where
  «from» : Nat
  «to» : Nat
deriving DecidableEq, Repr

/-- `PortRange::single`. -/
def PortRange.single (port : Nat) : PortRange := ⟨port, port⟩

/-- `PortRange::all`: `{ from: 0, to: 65535 }`. -/
def PortRange.all : PortRange := ⟨0, 65535⟩

/-- `PortRange::contains`: `port >= self.from && port <= self.to`. -/
def PortRange.contains (r : PortRange) (port : Nat) : Bool :=
  decide (r.«from» ≤ port) && decide (port ≤ r.«to»)

/-- `NetworkPolicy` (policy.rs). `labels` (a `HashMap<String, String>`) is
modelled as an association list; it plays no role in matching. -/
structure NetworkPolicy where
  id : String
  name : String
  description : Option String
  source : Option SpiffeId
  destination : Option SpiffeId
  source_ip : Option IpAddr
  destination_ip : Option IpAddr
  protocol : Protocol
  source_ports : List PortRange
  destination_ports : List PortRange
  action : PolicyAction
  priority : Nat
  labels : List (String × String)
  enabled : Bool
deriving DecidableEq, Repr

/-- `NetworkPolicy::new`: all optional fields empty, `enabled = true`. -/
def NetworkPolicy.new (id name : String) (protocol : Protocol)
    (action : PolicyAction) (priority : Nat) : NetworkPolicy :=
  { id := id, name := name, description := none, source := none,
    destination := none, source_ip := none, destination_ip := none,
    protocol := protocol, source_ports := [], destination_ports := [],
    action := action, priority := priority, labels := [], enabled := true }

/-- The identity-check block of `NetworkPolicy::matches`
(`if let Some(policy_x) = &self.x { ... }`): returns `true` exactly when
that block takes an early `return false`. -/
def idCheckFails : Option SpiffeId → Option SpiffeId → Bool
  | some ps, some cs => ps != cs
  | some _, none => true
  | none, _ => false

/-- The IP-check block of `NetworkPolicy::matches`: `true` exactly when the
block returns `false` early (policy pins an IP and it differs). -/
def ipCheckFails : Option IpAddr → IpAddr → Bool
  | some pip, ip => pip != ip
  | none, _ => false

/-- The port-check loop of `NetworkPolicy::matches`: with a non-empty range
list, scans for a range containing the port and fails when none does; an
empty list never fails. -/
def portCheckFails (ranges : List PortRange) (port : Nat) : Bool :=
  !ranges.isEmpty && !ranges.any (fun r => r.contains port)

/-- `NetworkPolicy::matches`: the source's early-return chain, one guard per
`return false` site, in source order. -/
def NetworkPolicy.matches (p : NetworkPolicy)
    (source_id destination_id : Option SpiffeId)
    (source_ip destination_ip : IpAddr) (protocol : Protocol)
    (source_port destination_port : Nat) : Bool :=
  if !p.enabled then false
  else if (p.protocol != Protocol.All) && (p.protocol != protocol) then false
  else if idCheckFails p.source source_id then false
  else if idCheckFails p.destination destination_id then false
  else if ipCheckFails p.source_ip source_ip then false
  else if ipCheckFails p.destination_ip destination_ip then false
  else if portCheckFails p.source_ports source_port then false
  else if portCheckFails p.destination_ports destination_port then false
  else true

/-! ### Helper lemmas for the matching semantics -/

theorem if_false_chain (b c : Bool) : (if b then false else c) = (!b && c) := by
  cases b <;> simp

theorem matches_eq_and_chain (p : NetworkPolicy)
    (sid did : Option SpiffeId) (sip dip : IpAddr) (proto : Protocol)
    (sp dp : Nat) :
    p.matches sid did sip dip proto sp dp =
      (!(!p.enabled) && !((p.protocol != Protocol.All) && (p.protocol != proto))
        && !(idCheckFails p.source sid) && !(idCheckFails p.destination did)
        && !(ipCheckFails p.source_ip sip) && !(ipCheckFails p.destination_ip dip)
        && !(portCheckFails p.source_ports sp)
        && !(portCheckFails p.destination_ports dp)) := by
  unfold NetworkPolicy.matches
  rw [if_false_chain, if_false_chain, if_false_chain, if_false_chain,
    if_false_chain, if_false_chain, if_false_chain, if_false_chain]
  simp [Bool.and_assoc]

theorem idCheckFails_false_iff (po c : Option SpiffeId) :
    idCheckFails po c = false ↔ ∀ ps, po = some ps → ∃ cs, c = some cs ∧ cs = ps := by
  cases po <;> cases c
  all_goals simp [idCheckFails]
  all_goals aesop

theorem ipCheckFails_false_iff (po : Option IpAddr) (ip : IpAddr) :
    ipCheckFails po ip = false ↔ ∀ pip, po = some pip → pip = ip := by
  cases po <;> simp [ipCheckFails]

theorem portCheckFails_false_iff (ranges : List PortRange) (port : Nat) :
    portCheckFails ranges port = false ↔
      (ranges ≠ [] → ∃ r ∈ ranges, r.«from» ≤ port ∧ port ≤ r.«to») := by
  constructor
  · intro h hne
    have hany : ranges.any (fun r => r.contains port) = true := by
      cases hr : ranges.any (fun r => r.contains port) with
      | true => rfl
      | false =>
        exfalso
        cases ranges with
        | nil => exact hne rfl
        | cons a t => simp [portCheckFails, hr] at h
    rcases List.any_eq_true.mp hany with ⟨r, hr, hc⟩
    exact ⟨r, hr, by simpa [PortRange.contains] using hc⟩
  · intro h
    unfold portCheckFails
    cases ranges with
    | nil => simp
    | cons a t =>
      rcases h (by simp) with ⟨r, hr, h1, h2⟩
      have hany : (a :: t).any (fun r => r.contains port) = true :=
        List.any_eq_true.mpr ⟨r, hr, by simp [PortRange.contains, h1, h2]⟩
      simp [hany]

/-- C7: for every `PortRange` `r` and port `p ≤ 65535`, `r.contains p` holds
iff `r.from ≤ p ≤ r.«to»` (inclusive both ends), and `PortRange::all()`
contains every such port. -/
theorem portRange_contains_iff (r : PortRange) (p : Nat) (hp : p ≤ 65535) :
    (r.contains p = true ↔ r.«from» ≤ p ∧ p ≤ r.«to») ∧
      PortRange.all.contains p = true := by
  constructor
  · simp [PortRange.contains]
  · simp [PortRange.contains, PortRange.all]
    exact hp

/-- Witness for C7 at `r = 10..=443`, `p = 443`. -/
theorem portRange_contains_iff_witness :
    ((PortRange.mk 10 443).contains 443 = true ↔ 10 ≤ 443 ∧ 443 ≤ 443) ∧
      PortRange.all.contains 443 = true :=
  portRange_contains_iff ⟨10, 443⟩ 443 (by decide)

/-- C3: `NetworkPolicy::matches` returns true iff the policy is enabled, the
protocol is `All` or equal to the connection's, each policy-side identity is
matched by an equal connection-side identity (absent connection identity is
no match, absent policy identity a wildcard), each policy-pinned IP equals
the connection's exactly, and each non-empty port-range list contains the
corresponding port in at least one range (empty list is a wildcard). -/
theorem networkPolicy_matches_iff (p : NetworkPolicy)
    (sid did : Option SpiffeId) (sip dip : IpAddr) (proto : Protocol)
    (sp dp : Nat) :
    p.matches sid did sip dip proto sp dp = true ↔
      (p.enabled = true
        ∧ (p.protocol = Protocol.All ∨ p.protocol = proto)
        ∧ (∀ ps, p.source = some ps → ∃ cs, sid = some cs ∧ cs = ps)
        ∧ (∀ pd, p.destination = some pd → ∃ cd, did = some cd ∧ cd = pd)
        ∧ (∀ pip, p.source_ip = some pip → pip = sip)
        ∧ (∀ pip, p.destination_ip = some pip → pip = dip)
        ∧ (p.source_ports ≠ [] → ∃ r ∈ p.source_ports, r.«from» ≤ sp ∧ sp ≤ r.«to»)
        ∧ (p.destination_ports ≠ [] →
            ∃ r ∈ p.destination_ports, r.«from» ≤ dp ∧ dp ≤ r.«to»)) := by
  rw [matches_eq_and_chain]
  simp only [Bool.and_eq_true, Bool.not_eq_true', Bool.not_not,
    Bool.not_eq_true]
  rw [idCheckFails_false_iff, idCheckFails_false_iff, ipCheckFails_false_iff,
    ipCheckFails_false_iff, portCheckFails_false_iff, portCheckFails_false_iff]
  constructor
  · rintro ⟨⟨⟨⟨⟨⟨⟨he, hp⟩, hs⟩, hd⟩, hsi⟩, hdi⟩, hsp⟩, hdp⟩
    refine ⟨by simpa using he, ?_, hs, hd, hsi, hdi, hsp, hdp⟩
    rcases Bool.and_eq_false_iff.mp hp with h | h
    · left
      simpa using h
    · right
      simpa using h
  · rintro ⟨he, hp, hs, hd, hsi, hdi, hsp, hdp⟩
    refine ⟨⟨⟨⟨⟨⟨⟨by simpa using he, ?_⟩, hs⟩, hd⟩, hsi⟩, hdi⟩, hsp⟩, hdp⟩
    rcases hp with h | h
    · apply Bool.and_eq_false_iff.mpr
      left
      simp [h]
    · apply Bool.and_eq_false_iff.mpr
      right
      simp [h]

/-! ## Connection identifiers (`crates/aegisnet-ebpf/src/maps.rs`) -/

/-- `std::net::Ipv4Addr`: four octets (`u8` as `Nat`). -/
structure Ipv4Addr where
  a : Nat
  b : Nat
  c : Nat
  d : Nat
deriving DecidableEq, Repr

/-- `Ipv4Addr::octets`. -/
def Ipv4Addr.octets (ip : Ipv4Addr) : List Nat := [ip.a, ip.b, ip.c, ip.d]

/-- `ConnectionId` (maps.rs): the `[u8; 16]` address fields are byte lists. -/
structure ConnectionId where
  src_ip : List Nat
  dst_ip : List Nat
  src_port : Nat
  dst_port : Nat
  protocol : Nat
deriving DecidableEq, Repr

/-- `buf[start..start+vals.len()].copy_from_slice(&vals)` on a byte array. -/
def copyFromSlice (l : List Nat) (start : Nat) (vals : List Nat) : List Nat :=
  l.take start ++ vals ++ l.drop (start + vals.length)

/-- `create_ipv4_connection_id` (maps.rs): zero-filled 16-byte buffers with
`0xFF,0xFF` written at bytes 10–11 and the IPv4 octets at bytes 12–15;
ports and protocol carried through. -/
def create_ipv4_connection_id (src_ip dst_ip : Ipv4Addr)
    (src_port dst_port protocol : Nat) : ConnectionId :=
  let src_ip_bytes :=
    copyFromSlice (copyFromSlice (List.replicate 16 0) 10 [0xFF, 0xFF]) 12
      src_ip.octets
  let dst_ip_bytes :=
    copyFromSlice (copyFromSlice (List.replicate 16 0) 10 [0xFF, 0xFF]) 12
      dst_ip.octets
  { src_ip := src_ip_bytes, dst_ip := dst_ip_bytes,
    src_port := src_port, dst_port := dst_port, protocol := protocol }

/-- C8: `create_ipv4_connection_id` maps IPv4 inputs to the IPv6-mapped
form — bytes 0–9 zero, bytes 10–11 `0xFF,0xFF`, bytes 12–15 the IPv4
octets — with ports and protocol unchanged; in particular
`10.0.0.1:443 → 10.0.0.2:8080, protocol 6` yields
`[0]*10 ++ [0xFF,0xFF] ++ octets`. -/
theorem create_ipv4_connection_id_spec (src dst : Ipv4Addr)
    (sp dp proto : Nat) :
    (create_ipv4_connection_id src dst sp dp proto).src_ip
        = List.replicate 10 0 ++ [0xFF, 0xFF] ++ src.octets
      ∧ (create_ipv4_connection_id src dst sp dp proto).dst_ip
        = List.replicate 10 0 ++ [0xFF, 0xFF] ++ dst.octets
      ∧ (create_ipv4_connection_id src dst sp dp proto).src_port = sp
      ∧ (create_ipv4_connection_id src dst sp dp proto).dst_port = dp
      ∧ (create_ipv4_connection_id src dst sp dp proto).protocol = proto
      ∧ (create_ipv4_connection_id ⟨10, 0, 0, 1⟩ ⟨10, 0, 0, 2⟩ 443 8080 6).src_ip
          = [0, 0, 0, 0, 0, 0, 0, 0, 0, 0, 0xFF, 0xFF, 10, 0, 0, 1]
      ∧ (create_ipv4_connection_id ⟨10, 0, 0, 1⟩ ⟨10, 0, 0, 2⟩ 443 8080 6).dst_ip
          = [0, 0, 0, 0, 0, 0, 0, 0, 0, 0, 0xFF, 0xFF, 10, 0, 0, 2] :=
  ⟨rfl, rfl, rfl, rfl, rfl, by decide, by decide⟩

/-! ## SPIFFE authenticator (`crates/aegisnet-ebpf/src/auth.rs`) -/

/-- `spiffe::WorkloadId`, opaque to the embedded code. -/
def WorkloadId := String

/-- `SpiffeAuthenticator` (auth.rs). -/
structure SpiffeAuthenticator where
  identity_cache : List (String × WorkloadId)

/-- `SpiffeAuthenticator::new`. -/
def SpiffeAuthenticator.new : SpiffeAuthenticator := ⟨[]⟩

/-- `SpiffeAuthenticator::verify_identity`: the body is unconditionally
`Ok(true)` (the SPIRE round-trip exists only as a comment). -/
def SpiffeAuthenticator.verify_identity (_a : SpiffeAuthenticator)
    (_spiffe_id : String) : Except String Bool :=
  .ok true

/-- `SpiffeAuthenticator::extract_identity_from_packet`: the body is
unconditionally `Ok(None)`. -/
def SpiffeAuthenticator.extract_identity_from_packet (_a : SpiffeAuthenticator)
    (_packet_data : List Nat) : Except String (Option String) :=
  .ok none

/-- C10: the bundled identity boundary is vacuous — `verify_identity`
returns `Ok(true)` for every identity string and
`extract_identity_from_packet` returns `Ok(None)` for every packet;
neither can fail or reject. -/
theorem spiffeAuthenticator_vacuous (a : SpiffeAuthenticator) :
    (∀ id, a.verify_identity id = .ok true) ∧
      (∀ pkt, a.extract_identity_from_packet pkt = .ok none) :=
  ⟨fun _ => rfl, fun _ => rfl⟩

/-! ## Policy sets (`crates/aegisnet-common/src/models/policy.rs`,
`PolicySet`) -/

/-- `PolicySet` (policy.rs): a vector of policies. -/
structure PolicySet where
  policies : List NetworkPolicy
deriving DecidableEq, Repr

/-- `PolicySet::new`. -/
def PolicySet.new : PolicySet := ⟨[]⟩

/-- One step of the stable sort by priority: the element is placed before
the first entry of strictly greater priority (so after every earlier entry
of equal priority). -/
def insertByPriority (p : NetworkPolicy) : List NetworkPolicy → List NetworkPolicy
  | [] => [p]
  | q :: t =>
    if q.priority < p.priority then q :: insertByPriority p t else p :: q :: t

/-- `Vec::sort_by_key(|p| p.priority)`: `sort_by_key` is a stable sort, and
every stable sort computes the same function of the input list; it is
realised here as a stable insertion sort. -/
def sortByPriority (l : List NetworkPolicy) : List NetworkPolicy :=
  l.foldr insertByPriority []

/-- `PolicySet::add_policy`: push, then stable-sort ascending by priority. -/
def PolicySet.add_policy (s : PolicySet) (p : NetworkPolicy) : PolicySet :=
  ⟨sortByPriority (s.policies ++ [p])⟩

/-- `PolicySet::remove_policy`: find the position of the first policy with
the given id, remove and return it; `None` (and no change) if absent. -/
def PolicySet.remove_policy (s : PolicySet) (id : String) :
    Option NetworkPolicy × PolicySet :=
  (s.policies.find? (fun p => p.id == id),
    ⟨s.policies.eraseP (fun p => p.id == id)⟩)

/-- The loop body of `PolicySet::get_matching_policy`: returns the first
policy in the list whose `matches` is true. -/
def findFirstMatching (sid did : Option SpiffeId) (sip dip : IpAddr)
    (proto : Protocol) (sp dp : Nat) :
    List NetworkPolicy → Option NetworkPolicy
  | [] => none
  | p :: rest =>
    if p.matches sid did sip dip proto sp dp then some p
    else findFirstMatching sid did sip dip proto sp dp rest

/-- `PolicySet::get_matching_policy`: first-match scan in stored order. -/
def PolicySet.get_matching_policy (s : PolicySet) (sid did : Option SpiffeId)
    (sip dip : IpAddr) (proto : Protocol) (sp dp : Nat) :
    Option NetworkPolicy :=
  findFirstMatching sid did sip dip proto sp dp s.policies

/-- A call sequence against a `PolicySet`. -/
inductive PolicyOp where
| add (p : NetworkPolicy)
| rem (id : String)

/-- Applies one `add_policy`/`remove_policy` call. -/
def PolicySet.applyOp (s : PolicySet) : PolicyOp → PolicySet
  | .add p => s.add_policy p
  | .rem id => (s.remove_policy id).2

/-- Applies a call sequence to the empty set. -/
def PolicySet.applyOps (ops : List PolicyOp) : PolicySet :=
  ops.foldl PolicySet.applyOp PolicySet.new

/-- Ascending priority order on policies. -/
def priorityLE (a b : NetworkPolicy) : Prop := a.priority ≤ b.priority

/-- Reference insertion for the stability statement: the new policy goes
after every entry of smaller-or-equal priority and before every entry of
strictly greater priority — ties end up in insertion order. -/
def insertAfterLE (p : NetworkPolicy) : List NetworkPolicy → List NetworkPolicy
  | [] => [p]
  | q :: t =>
    if q.priority ≤ p.priority then q :: insertAfterLE p t else p :: q :: t

/-! ### Sortedness and stability lemmas -/

theorem mem_insertByPriority {x p : NetworkPolicy} {l : List NetworkPolicy}
    (h : x ∈ insertByPriority p l) : x = p ∨ x ∈ l := by
  induction l with
  | nil => simpa [insertByPriority] using h
  | cons q t ih =>
    unfold insertByPriority at h
    by_cases hq : q.priority < p.priority
    · simp only [hq, if_true, List.mem_cons] at h
      rcases h with h | h
      · exact Or.inr (by simp [h])
      · rcases ih h with h' | h'
        · exact Or.inl h'
        · exact Or.inr (by simp [h'])
    · simp only [hq, if_false, List.mem_cons] at h
      rcases h with h | h | h
      · exact Or.inl h
      · exact Or.inr (by simp [h])
      · exact Or.inr (by simp [h])

theorem mem_insertAfterLE {x p : NetworkPolicy} {l : List NetworkPolicy}
    (h : x ∈ insertAfterLE p l) : x = p ∨ x ∈ l := by
  induction l with
  | nil => simpa [insertAfterLE] using h
  | cons q t ih =>
    unfold insertAfterLE at h
    by_cases hq : q.priority ≤ p.priority
    · simp only [hq, if_true, List.mem_cons] at h
      rcases h with h | h
      · exact Or.inr (by simp [h])
      · rcases ih h with h' | h'
        · exact Or.inl h'
        · exact Or.inr (by simp [h'])
    · simp only [hq, if_false, List.mem_cons] at h
      rcases h with h | h | h
      · exact Or.inl h
      · exact Or.inr (by simp [h])
      · exact Or.inr (by simp [h])

theorem pairwise_insertByPriority (p : NetworkPolicy)
    {l : List NetworkPolicy} (h : l.Pairwise priorityLE) :
    (insertByPriority p l).Pairwise priorityLE := by
  induction l with
  | nil => simp [insertByPriority, List.Pairwise]
  | cons q t ih =>
    rcases List.pairwise_cons.mp h with ⟨hq, ht⟩
    unfold insertByPriority
    by_cases hlt : q.priority < p.priority
    · simp only [hlt, if_true]
      refine List.pairwise_cons.mpr ⟨?_, ih ht⟩
      intro x hx
      rcases mem_insertByPriority hx with rfl | hx'
      · exact Nat.le_of_lt hlt
      · exact hq x hx'
    · simp only [hlt, if_false]
      refine List.pairwise_cons.mpr ⟨?_, h⟩
      intro x hx
      rcases List.mem_cons.mp hx with rfl | hx'
      · exact Nat.le_of_not_lt hlt
      · exact Nat.le_trans (Nat.le_of_not_lt hlt) (hq x hx')

theorem pairwise_sortByPriority (l : List NetworkPolicy) :
    (sortByPriority l).Pairwise priorityLE := by
  induction l with
  | nil => simp [sortByPriority, List.Pairwise]
  | cons p t ih => exact pairwise_insertByPriority p ih

theorem insertByPriority_of_le (a : NetworkPolicy) {l : List NetworkPolicy}
    (h : ∀ x ∈ l, a.priority ≤ x.priority) : insertByPriority a l = a :: l := by
  cases l with
  | nil => rfl
  | cons q t =>
    unfold insertByPriority
    have : ¬ q.priority < a.priority := Nat.not_lt.mpr (h q (by simp))
    simp [this]

theorem insertAfterLE_of_lt (p : NetworkPolicy) {l : List NetworkPolicy}
    (h : ∀ x ∈ l, p.priority < x.priority) : insertAfterLE p l = p :: l := by
  cases l with
  | nil => rfl
  | cons q t =>
    unfold insertAfterLE
    have : ¬ q.priority ≤ p.priority := Nat.not_le.mpr (h q (by simp))
    simp [this]

/-- On an already-sorted list, push-then-stable-sort is exactly the stable
insertion `insertAfterLE`. -/
theorem sortByPriority_append_single {l : List NetworkPolicy}
    (hl : l.Pairwise priorityLE) (p : NetworkPolicy) :
    sortByPriority (l ++ [p]) = insertAfterLE p l := by
  induction l with
  | nil => rfl
  | cons a t ih =>
    rcases List.pairwise_cons.mp hl with ⟨ha, ht⟩
    have step : sortByPriority ((a :: t) ++ [p])
        = insertByPriority a (sortByPriority (t ++ [p])) := rfl
    have hrhs : insertAfterLE p (a :: t)
        = if a.priority ≤ p.priority then a :: insertAfterLE p t
          else p :: a :: t := rfl
    rw [step, ih ht, hrhs]
    by_cases hle : a.priority ≤ p.priority
    · simp only [hle, if_true]
      apply insertByPriority_of_le
      intro x hx
      rcases mem_insertAfterLE hx with rfl | hx'
      · exact hle
      · exact ha x hx'
    · simp only [hle, if_false]
      have hpl : ∀ x ∈ t, p.priority < x.priority := by
        intro x hx
        exact Nat.lt_of_lt_of_le (Nat.lt_of_not_le hle) (ha x hx)
      rw [insertAfterLE_of_lt p hpl]
      have hstep2 : insertByPriority a (p :: t)
          = if p.priority < a.priority then p :: insertByPriority a t
            else a :: p :: t := rfl
      rw [hstep2]
      simp only [Nat.lt_of_not_le hle, if_true]
      rw [insertByPriority_of_le a ha]

theorem sortByPriority_of_pairwise {l : List NetworkPolicy}
    (hl : l.Pairwise priorityLE) : sortByPriority l = l := by
  induction l with
  | nil => rfl
  | cons a t ih =>
    rcases List.pairwise_cons.mp hl with ⟨ha, ht⟩
    have step : sortByPriority (a :: t) = insertByPriority a (sortByPriority t) := rfl
    rw [step, ih ht]
    exact insertByPriority_of_le a ha

theorem applyOps_pairwise (ops : List PolicyOp) :
    ((PolicySet.applyOps ops).policies).Pairwise priorityLE := by
  suffices h : ∀ (ops : List PolicyOp) (s : PolicySet),
      s.policies.Pairwise priorityLE →
      ((ops.foldl PolicySet.applyOp s).policies).Pairwise priorityLE by
    exact h ops PolicySet.new (by simp [PolicySet.new, List.Pairwise])
  intro ops
  induction ops with
  | nil => intro s hs; exact hs
  | cons op rest ih =>
    intro s hs
    refine ih _ ?_
    cases op with
    | add p => exact pairwise_sortByPriority _
    | rem id =>
      exact List.Pairwise.sublist (List.eraseP_sublist _) hs

theorem findFirstMatching_eq_some_iff (sid did : Option SpiffeId)
    (sip dip : IpAddr) (proto : Protocol) (sp dp : Nat)
    (l : List NetworkPolicy) (q : NetworkPolicy) :
    findFirstMatching sid did sip dip proto sp dp l = some q ↔
      ∃ l1 l2, l = l1 ++ q :: l2
        ∧ q.matches sid did sip dip proto sp dp = true
        ∧ ∀ r ∈ l1, r.matches sid did sip dip proto sp dp = false := by
  induction l with
  | nil => simp [findFirstMatching]
  | cons p rest ih =>
    unfold findFirstMatching
    by_cases hp : p.matches sid did sip dip proto sp dp = true
    · rw [if_pos hp]
      constructor
      · rintro h
        injection h with h
        exact ⟨[], rest, by simp [h], by rw [← h]; exact hp, by simp⟩
      · rintro ⟨l1, l2, heq, hq, hl1⟩
        cases l1 with
        | nil =>
          injection heq with h1 h2
          rw [h1]
        | cons a l1' =>
          injection heq with h1 h2
          exfalso
          have hf : p.matches sid did sip dip proto sp dp = false := by
            rw [h1]
            exact hl1 a (by simp)
          rw [hf] at hp
          exact Bool.false_ne_true hp
    · rw [if_neg hp, ih]
      constructor
      · rintro ⟨l1, l2, rfl, hq, hl1⟩
        refine ⟨p :: l1, l2, rfl, hq, ?_⟩
        intro r hr
        rcases List.mem_cons.mp hr with rfl | hr'
        · exact Bool.eq_false_iff.mpr hp
        · exact hl1 r hr'
      · rintro ⟨l1, l2, heq, hq, hl1⟩
        cases l1 with
        | nil =>
          injection heq with h1 h2
          exfalso
          rw [h1] at hp
          exact hp hq
        | cons a l1' =>
          injection heq with h1 h2
          exact ⟨l1', l2, h2, hq, fun r hr => hl1 r (by simp [hr])⟩

theorem findFirstMatching_eq_none_iff (sid did : Option SpiffeId)
    (sip dip : IpAddr) (proto : Protocol) (sp dp : Nat)
    (l : List NetworkPolicy) :
    findFirstMatching sid did sip dip proto sp dp l = none ↔
      ∀ r ∈ l, r.matches sid did sip dip proto sp dp = false := by
  induction l with
  | nil => simp [findFirstMatching]
  | cons p rest ih =>
    unfold findFirstMatching
    by_cases hp : p.matches sid did sip dip proto sp dp = true
    · simp [hp]
    · rw [if_neg hp, ih]
      constructor
      · intro h r hr
        rcases List.mem_cons.mp hr with rfl | hr'
        · exact Bool.eq_false_iff.mpr hp
        · exact h r hr'
      · intro h r hr
        exact h r (by simp [hr])

/-- The priority-10 TCP Deny policy of the spec's priority-ordering
example. -/
def denyTcp10 : NetworkPolicy :=
  NetworkPolicy.new "p1" "deny-tcp" Protocol.TCP PolicyAction.Deny 10

/-- The priority-20 protocol-All Allow policy of the spec's
priority-ordering example. -/
def allowAll20 : NetworkPolicy :=
  NetworkPolicy.new "p2" "allow-all" Protocol.All PolicyAction.Allow 20

/-- C4: over every sequence of `add_policy`/`remove_policy` calls the stored
policies stay sorted ascending by priority; an appended `add_policy` places
the new policy after all entries of priority ≤ its own and before those of
strictly greater priority (ties keep insertion order); `get_matching_policy`
returns the first stored policy whose `matches` is true, or none when no
policy matches; and the priority-10 TCP Deny / priority-20 All Allow example
resolves to the priority-10 policy. -/
theorem policySet_sorted_stable_firstMatch :
    (∀ ops : List PolicyOp,
      ((PolicySet.applyOps ops).policies).Pairwise priorityLE)
    ∧ (∀ (ops : List PolicyOp) (p : NetworkPolicy),
        (PolicySet.applyOps (ops ++ [PolicyOp.add p])).policies
          = insertAfterLE p (PolicySet.applyOps ops).policies)
    ∧ (∀ (s : PolicySet) (sid did : Option SpiffeId) (sip dip : IpAddr)
        (proto : Protocol) (sp dp : Nat) (q : NetworkPolicy),
        s.get_matching_policy sid did sip dip proto sp dp = some q ↔
          ∃ l1 l2, s.policies = l1 ++ q :: l2
            ∧ q.matches sid did sip dip proto sp dp = true
            ∧ ∀ r ∈ l1, r.matches sid did sip dip proto sp dp = false)
    ∧ (∀ (s : PolicySet) (sid did : Option SpiffeId) (sip dip : IpAddr)
        (proto : Protocol) (sp dp : Nat),
        s.get_matching_policy sid did sip dip proto sp dp = none ↔
          ∀ r ∈ s.policies, r.matches sid did sip dip proto sp dp = false)
    ∧ ((PolicySet.new.add_policy allowAll20 |>.add_policy
          denyTcp10).get_matching_policy
        none none (IpAddr.v4 10 0 0 1) (IpAddr.v4 10 0 0 2) Protocol.TCP
        443 8080 = some denyTcp10) := by
  refine ⟨applyOps_pairwise, ?_, ?_, ?_, ?_⟩
  · intro ops p
    have hfold : PolicySet.applyOps (ops ++ [PolicyOp.add p])
        = PolicySet.applyOp (PolicySet.applyOps ops) (PolicyOp.add p) := by
      unfold PolicySet.applyOps
      rw [List.foldl_append]
      rfl
    rw [hfold]
    exact sortByPriority_append_single (applyOps_pairwise ops) p
  · intro s sid did sip dip proto sp dp q
    exact findFirstMatching_eq_some_iff sid did sip dip proto sp dp s.policies q
  · intro s sid did sip dip proto sp dp
    exact findFirstMatching_eq_none_iff sid did sip dip proto sp dp s.policies
  · decide

/-- Witness for C4: the first-match characterization applied to the sorted
two-policy example set, with every hypothesis discharged concretely. -/
theorem policySet_sorted_stable_firstMatch_witness :
    ∃ l1 l2,
      (PolicySet.new.add_policy allowAll20 |>.add_policy
          denyTcp10).policies = l1 ++ denyTcp10 :: l2
      ∧ denyTcp10.matches none none (IpAddr.v4 10 0 0 1) (IpAddr.v4 10 0 0 2)
          Protocol.TCP 443 8080 = true
      ∧ ∀ r ∈ l1, r.matches none none (IpAddr.v4 10 0 0 1)
          (IpAddr.v4 10 0 0 2) Protocol.TCP 443 8080 = false :=
  (policySet_sorted_stable_firstMatch.2.2.1 _ none none _ _ Protocol.TCP
    443 8080 denyTcp10).mp policySet_sorted_stable_firstMatch.2.2.2.2

/-! ## Noise encryption sessions (`crates/aegisnet-ebpf/src/encryption.rs`)

The `snow` crate is an external dependency of the repository; its
handshake/transport states are abstracted as a model supplying exactly the
operations `encryption.rs` invokes. The wrapper's own control flow — state
dispatch, error propagation via `?`, the `Handshake → Transport`
transition on `is_handshake_finished` — is embedded verbatim. Each snow
call returns its result together with the successor inner state (the Rust
calls mutate through `&mut self`). -/

/-- The error values the wrapper returns: its two wrong-state `anyhow!`
messages, and snow errors bubbled up via `?`. -/
inductive NoiseError where
| notInTransport
| notInHandshake
| snowFailure (msg : String)
deriving DecidableEq, Repr

/-- Abstraction of the `snow` session types used by `encryption.rs`. -/
structure SnowModel where
  HSt : Type
  TSt : Type
  hsWriteMessage : HSt → List Nat → Except String (List Nat) × HSt
  hsIsFinished : HSt → Bool
  hsIntoTransport : HSt → Except String TSt
  tsWriteMessage : TSt → List Nat → Except String (List Nat) × TSt
  tsReadMessage : TSt → List Nat → Except String (List Nat) × TSt

/-- `SessionState` (encryption.rs). -/
inductive SessionState (M : SnowModel) where
| Handshake (hs : M.HSt)
| Transport (ts : M.TSt)
| Closed

/-- `NoiseEncryptor` (encryption.rs): the mutex-guarded session state plus
the protocol pattern string. -/
structure NoiseEncryptor (M : SnowModel) where
  state : SessionState M
  pattern : String

/-- Which constructor the session state is in. -/
inductive SessionTier where
| handshake
| transport
| closed
deriving DecidableEq, Repr

/-- Constructor of a `SessionState`. -/
def SessionState.tier {M : SnowModel} : SessionState M → SessionTier
  | .Handshake _ => .handshake
  | .Transport _ => .transport
  | .Closed => .closed

/-- `NoiseEncryptor::encrypt`: only `Transport` proceeds; a snow error
propagates via `?` with the stored state left as `Transport`. -/
def NoiseEncryptor.encrypt {M : SnowModel} (e : NoiseEncryptor M)
    (plaintext : List Nat) : Except NoiseError (List Nat) × NoiseEncryptor M :=
  match e.state with
  | .Transport ts =>
    match M.tsWriteMessage ts plaintext with
    | (.ok out, ts') => (.ok out, { e with state := .Transport ts' })
    | (.error err, ts') =>
      (.error (.snowFailure err), { e with state := .Transport ts' })
  | _ => (.error .notInTransport, e)

/-- `NoiseEncryptor::decrypt`: only `Transport` proceeds; a snow error
(tag mismatch, nonce violation) propagates via `?` with the stored state
left as `Transport`. -/
def NoiseEncryptor.decrypt {M : SnowModel} (e : NoiseEncryptor M)
    (ciphertext : List Nat) : Except NoiseError (List Nat) × NoiseEncryptor M :=
  match e.state with
  | .Transport ts =>
    match M.tsReadMessage ts ciphertext with
    | (.ok out, ts') => (.ok out, { e with state := .Transport ts' })
    | (.error err, ts') =>
      (.error (.snowFailure err), { e with state := .Transport ts' })
  | _ => (.error .notInTransport, e)

/-- `NoiseEncryptor::perform_handshake`: only `Handshake` proceeds; on
`is_handshake_finished` the state is replaced by `Transport`; snow errors
propagate via `?` with the state left as `Handshake`. -/
def NoiseEncryptor.perform_handshake {M : SnowModel} (e : NoiseEncryptor M)
    (message : List Nat) : Except NoiseError (List Nat) × NoiseEncryptor M :=
  match e.state with
  | .Handshake hs =>
    match M.hsWriteMessage hs message with
    | (.error err, hs') =>
      (.error (.snowFailure err), { e with state := .Handshake hs' })
    | (.ok out, hs') =>
      if M.hsIsFinished hs' then
        match M.hsIntoTransport hs' with
        | .ok ts => (.ok out, { e with state := .Transport ts })
        | .error err =>
          (.error (.snowFailure err), { e with state := .Handshake hs' })
      else (.ok out, { e with state := .Handshake hs' })
  | _ => (.error .notInHandshake, e)

/-- Concrete snow model in which every transport-read (decrypt) fails with
an authentication error and every transport-write succeeds. -/
def tagMismatchModel : SnowModel where
  HSt := Unit
  TSt := Unit
  hsWriteMessage := fun _ m => (.ok m, ())
  hsIsFinished := fun _ => true
  hsIntoTransport := fun _ => .ok ()
  tsWriteMessage := fun _ m => (.ok m, ())
  tsReadMessage := fun _ _ => (.error "snow: decrypt error", ())

/-- A session of `tagMismatchModel` sitting in `Transport`. -/
def tagMismatchSession : NoiseEncryptor tagMismatchModel :=
  { state := .Transport (), pattern := "Noise_XX_25519_ChaChaPoly_BLAKE2s" }

/-- A session of `tagMismatchModel` sitting in `Closed`. -/
def closedSession : NoiseEncryptor tagMismatchModel :=
  { state := .Closed, pattern := "Noise_XX_25519_ChaChaPoly_BLAKE2s" }

/-- C2 counterexample: a decrypt failure (authentication error from snow)
leaves the session in `Transport` — not `Closed` — and a subsequent encrypt
on the very same session succeeds. -/
theorem noise_failure_not_closed_counterexample :
    (tagMismatchSession.decrypt [0]).1
        = .error (.snowFailure "snow: decrypt error")
      ∧ ((tagMismatchSession.decrypt [0]).2).state.tier = SessionTier.transport
      ∧ ((tagMismatchSession.decrypt [0]).2).state.tier ≠ SessionTier.closed
      ∧ (((tagMismatchSession.decrypt [0]).2).encrypt [1]).1 = .ok [1] :=
  ⟨rfl, rfl, by decide, rfl⟩

/-- C2 (amended): cryptographic failures never move a session to `Closed` —
`encrypt` and `decrypt` preserve the state constructor (a failed decrypt
stays in `Transport`), `perform_handshake` either stays in `Handshake` or
advances to `Transport`, and no operation's successor state is `Closed`
unless the session was already `Closed`; after a failure subsequent calls
may succeed. -/
theorem noise_failure_state_preservation (M : SnowModel)
    (e : NoiseEncryptor M) (data : List Nat) :
    ((e.encrypt data).2).state.tier = e.state.tier
      ∧ ((e.decrypt data).2).state.tier = e.state.tier
      ∧ (((e.perform_handshake data).2).state.tier = e.state.tier
          ∨ (e.state.tier = SessionTier.handshake
              ∧ ((e.perform_handshake data).2).state.tier
                  = SessionTier.transport))
      ∧ (((e.encrypt data).2).state.tier = SessionTier.closed
          → e.state.tier = SessionTier.closed)
      ∧ (((e.decrypt data).2).state.tier = SessionTier.closed
          → e.state.tier = SessionTier.closed)
      ∧ (((e.perform_handshake data).2).state.tier = SessionTier.closed
          → e.state.tier = SessionTier.closed) := by
  obtain ⟨s, pat⟩ := e
  have henc : ((NoiseEncryptor.encrypt ⟨s, pat⟩ data).2).state.tier = s.tier := by
    cases s with
    | Handshake hs => rfl
    | Closed => rfl
    | Transport ts =>
      unfold NoiseEncryptor.encrypt
      rcases hw : M.tsWriteMessage ts data with ⟨r, ts'⟩
      cases r <;> simp [hw, SessionState.tier]
  have hdec : ((NoiseEncryptor.decrypt ⟨s, pat⟩ data).2).state.tier = s.tier := by
    cases s with
    | Handshake hs => rfl
    | Closed => rfl
    | Transport ts =>
      unfold NoiseEncryptor.decrypt
      rcases hw : M.tsReadMessage ts data with ⟨r, ts'⟩
      cases r <;> simp [hw, SessionState.tier]
  have hhs : ((NoiseEncryptor.perform_handshake ⟨s, pat⟩ data).2).state.tier = s.tier
      ∨ (s.tier = SessionTier.handshake
          ∧ ((NoiseEncryptor.perform_handshake ⟨s, pat⟩ data).2).state.tier
              = SessionTier.transport) := by
    cases s with
    | Transport ts => exact Or.inl rfl
    | Closed => exact Or.inl rfl
    | Handshake hs =>
      unfold NoiseEncryptor.perform_handshake
      rcases hw : M.hsWriteMessage hs data with ⟨r, hs'⟩
      cases r with
      | error err => exact Or.inl (by simp [hw, SessionState.tier])
      | ok out =>
        by_cases hfin : M.hsIsFinished hs' = true
        · cases hh : M.hsIntoTransport hs' with
          | ok ts =>
            exact Or.inr ⟨rfl, by simp [hw, hfin, hh, SessionState.tier]⟩
          | error err =>
            exact Or.inl (by simp [hw, hfin, hh, SessionState.tier])
        · exact Or.inl (by simp [hw, hfin, SessionState.tier])
  refine ⟨henc, hdec, hhs, ?_, ?_, ?_⟩
  · intro h
    rw [← henc]
    exact h
  · intro h
    rw [← hdec]
    exact h
  · intro h
    rcases hhs with h' | ⟨_, h'⟩
    · rw [← h']
      exact h
    · rw [h'] at h
      exact absurd h (by decide)

/-- Witness for C2's amended theorem at the concrete `Closed` session. -/
theorem noise_failure_state_preservation_witness :
    closedSession.state.tier = SessionTier.closed :=
  (noise_failure_state_preservation tagMismatchModel closedSession [0]).2.2.2.1 rfl

/-- C5: `encrypt` and `decrypt` succeed only in `Transport` — in `Handshake`
or `Closed` they return the typed wrong-state error value with the session
unchanged, and `perform_handshake` likewise returns a typed error outside
`Handshake`; every outcome is a returned `Err` value (the embedding is a
total function), never a panic or abort. -/
theorem noise_wrong_state_errors (M : SnowModel) (hs : M.HSt) (ts : M.TSt)
    (pat : String) (data : List Nat) :
    (NoiseEncryptor.encrypt ⟨.Handshake hs, pat⟩ data
        = (.error .notInTransport, ⟨.Handshake hs, pat⟩))
      ∧ (NoiseEncryptor.encrypt (M := M) ⟨.Closed, pat⟩ data
          = (.error .notInTransport, ⟨.Closed, pat⟩))
      ∧ (NoiseEncryptor.decrypt ⟨.Handshake hs, pat⟩ data
          = (.error .notInTransport, ⟨.Handshake hs, pat⟩))
      ∧ (NoiseEncryptor.decrypt (M := M) ⟨.Closed, pat⟩ data
          = (.error .notInTransport, ⟨.Closed, pat⟩))
      ∧ (NoiseEncryptor.perform_handshake ⟨.Transport ts, pat⟩ data
          = (.error .notInHandshake, ⟨.Transport ts, pat⟩))
      ∧ (NoiseEncryptor.perform_handshake (M := M) ⟨.Closed, pat⟩ data
          = (.error .notInHandshake, ⟨.Closed, pat⟩))
      ∧ (∀ (e : NoiseEncryptor M) (r : List Nat),
          (e.encrypt data).1 = .ok r → e.state.tier = SessionTier.transport)
      ∧ (∀ (e : NoiseEncryptor M) (r : List Nat),
          (e.decrypt data).1 = .ok r → e.state.tier = SessionTier.transport)
      ∧ (∀ (e : NoiseEncryptor M) (r : List Nat),
          (e.perform_handshake data).1 = .ok r
            → e.state.tier = SessionTier.handshake) := by
  refine ⟨rfl, rfl, rfl, rfl, rfl, rfl, ?_, ?_, ?_⟩
  · rintro ⟨s, p⟩ r h
    cases s with
    | Transport ts' => rfl
    | Handshake hs' => exact absurd h (by simp [NoiseEncryptor.encrypt])
    | Closed => exact absurd h (by simp [NoiseEncryptor.encrypt])
  · rintro ⟨s, p⟩ r h
    cases s with
    | Transport ts' => rfl
    | Handshake hs' => exact absurd h (by simp [NoiseEncryptor.decrypt])
    | Closed => exact absurd h (by simp [NoiseEncryptor.decrypt])
  · rintro ⟨s, p⟩ r h
    cases s with
    | Handshake hs' => rfl
    | Transport ts' =>
      exact absurd h (by simp [NoiseEncryptor.perform_handshake])
    | Closed => exact absurd h (by simp [NoiseEncryptor.perform_handshake])

/-- Witness for C5 at the concrete transport session: a successful encrypt
implies the session was in `Transport`. -/
theorem noise_wrong_state_errors_witness :
    tagMismatchSession.state.tier = SessionTier.transport :=
  (noise_wrong_state_errors tagMismatchModel () () "p" [7]).2.2.2.2.2.2.1
    tagMismatchSession [7] rfl

/-! ## Wasm policy engine (`crates/aegisnet-ebpf/src/policy.rs`)

The WasmEdge runtime is an external dependency of the repository; module
loading (`Module::from_file`), registration and function invocation are
abstracted as a model. The engine's own logic — cache lookup, the
policy-not-found error, decoding the i32 result — is embedded verbatim. -/

/-- `PolicyResult` (policy.rs). -/
inductive PolicyResult where
| Allow
| Deny
| NeedInspection
deriving DecidableEq, Repr

/-- Engine errors: the `策略不存在` (policy does not exist) `anyhow!`
message, distinguished from errors bubbled up from the WasmEdge calls. -/
inductive PolicyEngineError where
| policyNotFound (id : String)
| wasmFailure (msg : String)
deriving DecidableEq, Repr

/-- Abstraction of the WasmEdge runtime operations `policy.rs` invokes. -/
structure WasmModel where
  Module : Type
  VmSt : Type
  fromFile : String → Except String Module
  registerModule : VmSt → Module → Except String VmSt
  runFunction : VmSt → String → List Nat → Except String Int

/-- `WasmPolicyEngine` (policy.rs): the `HashMap<String, Module>` cache is
an association list without duplicate keys, plus the vm handle. -/
structure WasmPolicyEngine (W : WasmModel) where
  policy_cache : List (String × W.Module)
  vm : W.VmSt

/-- `HashMap::insert`: replaces the value under an existing key, otherwise
appends the new binding. -/
def cacheInsert {W : WasmModel} (cache : List (String × W.Module))
    (k : String) (m : W.Module) : List (String × W.Module) :=
  if cache.any (fun kv => kv.1 == k) then
    cache.map (fun kv => if kv.1 == k then (k, m) else kv)
  else cache ++ [(k, m)]

/-- `HashMap::get`. -/
def cacheGet {W : WasmModel} (cache : List (String × W.Module))
    (k : String) : Option W.Module :=
  (cache.find? (fun kv => kv.1 == k)).map (fun kv => kv.2)

/-- The i32-decoding match of `execute_policy`:
`0 => Allow, 1 => Deny, _ => NeedInspection`. -/
def decodePolicyResult (r : Int) : PolicyResult :=
  if r = 0 then .Allow else if r = 1 then .Deny else .NeedInspection

/-- `WasmPolicyEngine::load_policy`: `Module::from_file` then cache insert;
a load failure propagates via `?` with the engine unchanged. -/
def WasmPolicyEngine.load_policy {W : WasmModel} (e : WasmPolicyEngine W)
    (policy_id : String) (wasm_path : String) :
    Except PolicyEngineError Unit × WasmPolicyEngine W :=
  match W.fromFile wasm_path with
  | .error err => (.error (.wasmFailure err), e)
  | .ok m =>
    (.ok (), { e with policy_cache := cacheInsert e.policy_cache policy_id m })

/-- `WasmPolicyEngine::execute_policy`: cache lookup, register the module on
a clone of the vm, run `evaluate`, decode; the not-found arm returns the
`策略不存在` error. -/
def WasmPolicyEngine.execute_policy {W : WasmModel} (e : WasmPolicyEngine W)
    (policy_id : String) (context : List Nat) :
    Except PolicyEngineError PolicyResult :=
  match cacheGet e.policy_cache policy_id with
  | some m =>
    match W.registerModule e.vm m with
    | .error err => .error (.wasmFailure err)
    | .ok vm' =>
      match W.runFunction vm' "evaluate" context with
      | .error err => .error (.wasmFailure err)
      | .ok r => .ok (decodePolicyResult r)
  | none => .error (.policyNotFound policy_id)

/-- `WasmPolicyEngine::unload_policy`: removes the binding, reporting
whether one was present. -/
def WasmPolicyEngine.unload_policy {W : WasmModel} (e : WasmPolicyEngine W)
    (policy_id : String) : Bool × WasmPolicyEngine W :=
  ((cacheGet e.policy_cache policy_id).isSome,
    { e with policy_cache := e.policy_cache.eraseP (fun kv => kv.1 == policy_id) })

/-- `WasmPolicyEngine::list_policies`. -/
def WasmPolicyEngine.list_policies {W : WasmModel}
    (e : WasmPolicyEngine W) : List String :=
  e.policy_cache.map (fun kv => kv.1)

theorem cacheGet_cacheInsert_self {W : WasmModel}
    (cache : List (String × W.Module)) (k : String) (m : W.Module) :
    cacheGet (cacheInsert cache k m) k = some m := by
  unfold cacheInsert
  by_cases hany : cache.any (fun kv => kv.1 == k) = true
  · rw [if_pos hany]
    induction cache with
    | nil => simp at hany
    | cons kv t ih =>
      by_cases hk : kv.1 == k
      · simp [cacheGet, List.find?, hk]
      · have ht : t.any (fun kv => kv.1 == k) = true := by
          simpa [List.any_cons, hk] using hany
        have := ih ht
        simpa [cacheGet, List.find?, hk] using this
  · rw [if_neg hany]
    induction cache with
    | nil => simp [cacheGet, List.find?]
    | cons kv t ih =>
      have hk : (kv.1 == k) = false := by
        by_contra hc
        exact hany (by simp [List.any_cons, eq_true_of_ne_false hc])
      have ht : ¬ t.any (fun kv => kv.1 == k) = true := by
        intro hc
        exact hany (by simp [List.any_cons, hc])
      have := ih ht
      simpa [cacheGet, List.find?, hk] using this

theorem execute_policy_of_some {W : WasmModel} (e : WasmPolicyEngine W)
    (pid : String) (ctx : List Nat) (m : W.Module)
    (hc : cacheGet e.policy_cache pid = some m) :
    (∃ r, e.execute_policy pid ctx = .ok r)
      ∨ (∃ msg, e.execute_policy pid ctx = .error (.wasmFailure msg)) := by
  cases hr : W.registerModule e.vm m with
  | error err =>
    exact Or.inr ⟨err, by simp [WasmPolicyEngine.execute_policy, hc, hr]⟩
  | ok vm' =>
    cases hf : W.runFunction vm' "evaluate" ctx with
    | error err =>
      exact Or.inr ⟨err, by simp [WasmPolicyEngine.execute_policy, hc, hr, hf]⟩
    | ok r =>
      exact Or.inl ⟨decodePolicyResult r,
        by simp [WasmPolicyEngine.execute_policy, hc, hr, hf]⟩

theorem execute_policy_notFound_imp {W : WasmModel} (e : WasmPolicyEngine W)
    (pid s : String) (ctx : List Nat)
    (h : e.execute_policy pid ctx = .error (.policyNotFound s)) :
    cacheGet e.policy_cache pid = none := by
  cases hc : cacheGet e.policy_cache pid with
  | none => rfl
  | some m =>
    exfalso
    rcases execute_policy_of_some e pid ctx m hc with ⟨r, hr⟩ | ⟨msg, hr⟩
    · rw [hr] at h
      exact Except.noConfusion h
    · rw [hr] at h
      injection h with h
      exact PolicyEngineError.noConfusion h

/-- C6: `execute_policy` fails with the policy-not-found error iff no module
is registered under the id; after a successful `load_policy` on that id,
`execute_policy` no longer returns policy-not-found; and every successful
result is one of Allow, Deny, NeedInspection. -/
theorem wasm_execute_policy_spec (W : WasmModel) (e : WasmPolicyEngine W)
    (pid : String) (ctx : List Nat) :
    (e.execute_policy pid ctx = .error (.policyNotFound pid)
        ↔ cacheGet e.policy_cache pid = none)
      ∧ (∀ s, e.execute_policy pid ctx = .error (.policyNotFound s)
          → cacheGet e.policy_cache pid = none)
      ∧ (∀ (path : String) (e' : WasmPolicyEngine W),
          e.load_policy pid path = (.ok (), e')
          → ∀ s, e'.execute_policy pid ctx ≠ .error (.policyNotFound s))
      ∧ (∀ r, e.execute_policy pid ctx = .ok r
          → r = .Allow ∨ r = .Deny ∨ r = .NeedInspection) := by
  refine ⟨⟨execute_policy_notFound_imp e pid pid ctx, ?_⟩, ?_, ?_, ?_⟩
  · intro h
    unfold WasmPolicyEngine.execute_policy
    rw [h]
  · exact fun s => execute_policy_notFound_imp e pid s ctx
  · intro path e' hload s hexec
    cases hf : W.fromFile path with
    | error err =>
      unfold WasmPolicyEngine.load_policy at hload
      rw [hf] at hload
      injection hload with h1 h2
      exact Except.noConfusion h1
    | ok m =>
      unfold WasmPolicyEngine.load_policy at hload
      rw [hf] at hload
      injection hload with h1 h2
      have hsome : cacheGet e'.policy_cache pid = some m := by
        rw [← h2]
        exact cacheGet_cacheInsert_self e.policy_cache pid m
      rw [execute_policy_notFound_imp e' pid s ctx hexec] at hsome
      exact Option.noConfusion hsome
  · intro r _
    cases r with
    | Allow => exact Or.inl rfl
    | Deny => exact Or.inr (Or.inl rfl)
    | NeedInspection => exact Or.inr (Or.inr rfl)

/-- Concrete WasmEdge model for the C6 witness: loading always succeeds and
`evaluate` returns 1 (Deny). -/
def trivialWasmModel : WasmModel where
  Module := Unit
  VmSt := Unit
  fromFile := fun _ => .ok ()
  registerModule := fun _ _ => .ok ()
  runFunction := fun _ _ _ => .ok 1

/-- An engine of `trivialWasmModel` with an empty cache. -/
def emptyWasmEngine : WasmPolicyEngine trivialWasmModel :=
  { policy_cache := [], vm := () }

/-- Witness for C6: on the empty engine `execute_policy "missing"` returns
policy-not-found; after `load_policy "missing"` it never does. -/
theorem wasm_execute_policy_spec_witness :
    emptyWasmEngine.execute_policy "missing" [0]
        = .error (.policyNotFound "missing")
      ∧ ∀ s, ((emptyWasmEngine.load_policy "missing" "policy.wasm").2).execute_policy
          "missing" [0] ≠ .error (.policyNotFound s) :=
  ⟨(wasm_execute_policy_spec trivialWasmModel emptyWasmEngine "missing" [0]).1.mpr rfl,
    fun s =>
      (wasm_execute_policy_spec trivialWasmModel emptyWasmEngine "missing"
        [0]).2.2.1 "policy.wasm"
        ((emptyWasmEngine.load_policy "missing" "policy.wasm").2) rfl s⟩

/-! ## Hook manager (`crates/aegisnet-ebpf/src/hooks.rs`) and eBPF loader
(`crates/aegisnet-agent/src/ebpf_loader.rs`)

The aya kernel interface is an external dependency; whether each named
program exists in the loaded artifact and each per-target attach outcome
are abstracted as an environment. The loader's registration bookkeeping
and control flow (`?` early returns, `HashMap` inserts) are embedded
verbatim. -/

/-- `ProgramType` (ebpf_loader.rs). -/
inductive ProgramType where
| Xdp
| Tc
| TracePoint
deriving DecidableEq, Repr

/-- `ProgramInfo` (ebpf_loader.rs). -/
structure ProgramInfo where
  program_type : ProgramType
  name : String
  attach_point : String
  active : Bool
deriving DecidableEq, Repr

/-- `HookManager`'s held program references (`xdp_programs`,
`tc_programs`); the handles themselves are opaque. -/
structure HookManager (α β : Type) where
  xdp_programs : List α
  tc_programs : List β

/-- `HookManager::detach_all`: clears both vectors (aya detaches on drop)
and always returns `Ok(())`. -/
def HookManager.detach_all {α β : Type} (_h : HookManager α β) :
    Except String Unit × HookManager α β :=
  (.ok (), { xdp_programs := [], tc_programs := [] })

/-- `HashMap::insert` on the loader's `loaded_programs` table. -/
def programsInsert (t : List (String × ProgramInfo)) (k : String)
    (v : ProgramInfo) : List (String × ProgramInfo) :=
  if t.any (fun kv => kv.1 == k) then
    t.map (fun kv => if kv.1 == k then (k, v) else kv)
  else t ++ [(k, v)]

/-- Abstraction of the aya side of `attach_programs`: whether each named
program exists with the right type (the `if let Ok(program) = ...` guards)
and the per-target kernel attach outcomes. -/
structure AttachEnv where
  hasXdp : Bool
  hasTc : Bool
  hasTracePoint : Bool
  xdpAttach : String → Except String Unit
  tcAttach : String → Except String Unit
  tpAttach : Except String Unit

/-- The TC block of the per-interface loop body of
`EbpfLoader::attach_programs`: skipped when `tc_policy` is absent; an
attach failure returns early via `?` with its context message. -/
def attachTcBlock (env : AttachEnv) (interface : String)
    (lp : List (String × ProgramInfo)) :
    Except String Unit × List (String × ProgramInfo) :=
  if env.hasTc then
    match env.tcAttach interface with
    | .error _ => (.error ("挂载 TC 程序到接口 " ++ interface ++ " 失败"), lp)
    | .ok _ =>
      (.ok (), programsInsert lp ("tc_" ++ interface)
        ⟨.Tc, "tc_policy", interface, true⟩)
  else (.ok (), lp)

/-- The per-interface loop body of `attach_programs`: XDP block then TC
block; a failure keeps the registrations made before it. -/
def attachInterface (env : AttachEnv) (interface : String)
    (lp : List (String × ProgramInfo)) :
    Except String Unit × List (String × ProgramInfo) :=
  if env.hasXdp then
    match env.xdpAttach interface with
    | .error _ => (.error ("挂载 XDP 程序到接口 " ++ interface ++ " 失败"), lp)
    | .ok _ =>
      attachTcBlock env interface
        (programsInsert lp ("xdp_" ++ interface)
          ⟨.Xdp, "xdp_firewall", interface, true⟩)
  else attachTcBlock env interface lp

/-- The `for interface in interfaces` loop of `attach_programs`: the `?` on
a failed attach aborts the whole loop. -/
def attachLoop (env : AttachEnv) :
    List String → List (String × ProgramInfo) →
    Except String Unit × List (String × ProgramInfo)
  | [], lp => (.ok (), lp)
  | i :: rest, lp =>
    match attachInterface env i lp with
    | (.error e, lp') => (.error e, lp')
    | (.ok _, lp') => attachLoop env rest lp'

/-- The trailing TracePoint block of `attach_programs`. -/
def attachTracePoint (env : AttachEnv) (lp : List (String × ProgramInfo)) :
    Except String Unit × List (String × ProgramInfo) :=
  if env.hasTracePoint then
    match env.tpAttach with
    | .error _ => (.error "挂载 TracePoint 程序失败", lp)
    | .ok _ =>
      (.ok (), programsInsert lp "tp_connect"
        ⟨.TracePoint, "tp_connect", "inet_sock_set_state", true⟩)
  else (.ok (), lp)

/-- `EbpfLoader::attach_programs` acting on the mutable `loaded_programs`
table: the interface loop, then the single TracePoint attach. -/
def attach_programs (env : AttachEnv) (interfaces : List String)
    (lp : List (String × ProgramInfo)) :
    Except String Unit × List (String × ProgramInfo) :=
  match attachLoop env interfaces lp with
  | (.error e, lp') => (.error e, lp')
  | (.ok _, lp') => attachTracePoint env lp'

/-- Attach environment in which every attach on `eth0` succeeds and every
attach on any other interface fails. -/
def eth1FailEnv : AttachEnv where
  hasXdp := true
  hasTc := true
  hasTracePoint := false
  xdpAttach := fun i => if i == "eth0" then .ok () else .error "netlink error"
  tcAttach := fun i => if i == "eth0" then .ok () else .error "netlink error"
  tpAttach := .ok ()

/-- C1 counterexample: with `eth1` failing and `eth0` succeeding, the call
over `[eth1, eth0]` aborts at `eth1` with a single error — `eth0` is never
attempted and no registration for it exists — although the same
environment attaches `eth0` successfully when it is reached first. So a
failure on one interface does prevent attempting the others, and no
aggregate per-target result is produced. -/
theorem attach_programs_counterexample :
    attach_programs eth1FailEnv ["eth1", "eth0"] []
        = (.error "挂载 XDP 程序到接口 eth1 失败", [])
      ∧ attach_programs eth1FailEnv ["eth0"] []
        = (.ok (), [("xdp_eth0", ⟨ProgramType.Xdp, "xdp_firewall", "eth0", true⟩),
            ("tc_eth0", ⟨ProgramType.Tc, "tc_policy", "eth0", true⟩)]) :=
  ⟨rfl, rfl⟩

/-- C1 (amended): `attach_programs` attempts interfaces sequentially and
stops at the first attach failure, returning that single error rather than
an aggregate result — interfaces after the failing one are never
attempted — while registrations recorded before the failure (including
those of earlier interfaces that succeeded) remain in `loaded_programs`;
e.g. failing on `eth1` after `eth0` succeeded leaves both `eth0` entries
present. -/
theorem attach_programs_first_failure :
    (∀ (env : AttachEnv) (i : String) (rest : List String)
        (lp : List (String × ProgramInfo)) (e : String),
      env.hasXdp = true → env.xdpAttach i = .error e →
      attach_programs env (i :: rest) lp
        = (.error ("挂载 XDP 程序到接口 " ++ i ++ " 失败"), lp))
      ∧ attach_programs eth1FailEnv ["eth0", "eth1"] []
        = (.error "挂载 XDP 程序到接口 eth1 失败",
            [("xdp_eth0", ⟨ProgramType.Xdp, "xdp_firewall", "eth0", true⟩),
              ("tc_eth0", ⟨ProgramType.Tc, "tc_policy", "eth0", true⟩)]) := by
  constructor
  · intro env i rest lp e hx he
    simp [attach_programs, attachLoop, attachInterface, hx, he]
  · rfl

/-- Witness for C1's amended theorem: the general early-abort equation
applied to the concrete failing environment. -/
theorem attach_programs_first_failure_witness :
    attach_programs eth1FailEnv ["eth1"] []
      = (.error "挂载 XDP 程序到接口 eth1 失败", []) :=
  attach_programs_first_failure.1 eth1FailEnv "eth1" [] [] "netlink error"
    rfl rfl

/-- `EbpfLoader`'s unload-relevant state (ebpf_loader.rs): the optional
hook manager, the `loaded_programs` table, the opaque map manager. -/
structure EbpfLoader (α β : Type) where
  hook_manager : Option (HookManager α β)
  loaded_programs : List (String × ProgramInfo)
  map_manager : Option Unit

/-- `EbpfLoader::unload_programs`: `take()` the hook manager and
`detach_all()?` if present, then clear `loaded_programs` and drop the map
manager, returning `Ok(())`. -/
def EbpfLoader.unload_programs {α β : Type} (l : EbpfLoader α β) :
    Except String Unit × EbpfLoader α β :=
  match l.hook_manager with
  | some hm =>
    match (hm.detach_all).1 with
    | .error e => (.error e, { l with hook_manager := none })
    | .ok _ =>
      (.ok (),
        { hook_manager := none, loaded_programs := [], map_manager := none })
  | none =>
    (.ok (),
      { hook_manager := none, loaded_programs := [], map_manager := none })

/-- C9: detaching is idempotent — `detach_all` always succeeds and empties
both program vectors, and repeating it on the result is a no-op that also
succeeds; `unload_programs` always succeeds (also with nothing loaded),
empties the registration table, and repeating it immediately is a no-op
that succeeds with the table still empty. -/
theorem detach_all_idempotent {α β : Type} (h : HookManager α β)
    (l : EbpfLoader α β) :
    (h.detach_all).1 = .ok ()
      ∧ ((h.detach_all).2).xdp_programs = []
      ∧ ((h.detach_all).2).tc_programs = []
      ∧ ((h.detach_all).2).detach_all = (.ok (), (h.detach_all).2)
      ∧ (l.unload_programs).1 = .ok ()
      ∧ ((l.unload_programs).2).loaded_programs = []
      ∧ ((l.unload_programs).2).unload_programs
          = (.ok (), (l.unload_programs).2) := by
  obtain ⟨hm, lp, mm⟩ := l
  cases hm with
  | some h' => exact ⟨rfl, rfl, rfl, rfl, rfl, rfl, rfl⟩
  | none => exact ⟨rfl, rfl, rfl, rfl, rfl, rfl, rfl⟩
